import Mathlib

/-!
Verification development for the pcap-sidecar filesystem watcher
(`pcap-fsnotify`, package `main`): a shallow embedding of the export
pipeline — the Reliable Mover (`movePcapToGcs`), the Rotation Tracker and
Export Dispatcher (`exportPcapFile`), the terminal flush (`flushSrcDir`),
the Memory Relief Monitor tick, the shutdown single-fire cancellation
guard, and the initialization sequence of `main`.

External collaborators (the Go standard library, `fsnotify`, `retry-go`,
`haxmap`, the OS filesystem) are modelled by their documented contracts:
the filesystem is a pair of file-name lists (source directory and
destination directory), `O_CREATE|O_EXCL` creation fails exactly when the
destination name is already present, the retry combinator performs up to
`retries_max` attempts of the copy step with a fixed delay between
attempts, and the per-key maps are association lists mutated sequentially
(concurrent interference at the compare-and-swap linearization point is
made explicit as an optional interference value).

Machine integers: the per-key creation counter is an `atomic.Uint64` in
the source, so the post-increment value is taken modulo `2 ^ 64`.
-/

namespace PcapSidecar

/-- Lookup in an association list keyed by strings (models a `haxmap.Map`
read: `Get` returns the value and whether the key was present). -/
def lookupKV {α : Type} : List (String × α) → String → Option α
  | [], _ => none
  | (k', v) :: rest, k => if k = k' then some v else lookupKV rest k

/-- Update-or-insert in an association list (models `haxmap.Map.Set`). -/
def setKV {α : Type} : List (String × α) → String → α → List (String × α)
  | [], k, v => [(k, v)]
  | (k', v') :: rest, k, v =>
      if k = k' then (k, v) :: rest else (k', v') :: setKV rest k v

theorem lookupKV_setKV_self {α : Type} (m : List (String × α)) (k : String) (v : α) :
    lookupKV (setKV m k v) k = some v := by
  induction m with
  | nil => simp [setKV, lookupKV]
  | cons hd tl ih =>
      obtain ⟨k', v'⟩ := hd
      by_cases h : k = k'
      · simp [setKV, lookupKV, h]
      · simp [setKV, lookupKV, h, ih]

theorem lookupKV_setKV_ne {α : Type} (m : List (String × α)) (k k' : String) (v : α)
    (h : k' ≠ k) : lookupKV (setKV m k v) k' = lookupKV m k' := by
  induction m with
  | nil => simp [setKV, lookupKV, h]
  | cons hd tl ih =>
      obtain ⟨k₀, v₀⟩ := hd
      by_cases hk : k = k₀
      · subst hk
        simp [setKV, lookupKV, h]
      · by_cases hk' : k' = k₀ <;> simp [setKV, lookupKV, hk, hk', ih]

/-- The filesystem visible to the watcher: names of the files currently
present in the source directory (`src_dir`) and in the destination
directory (`gcs_dir`). -/
structure FS where
  src : List String
  dst : List String
deriving DecidableEq, Repr

/-- Configuration and environment oracle for the Reliable Mover:
`retriesMax` / `retriesDelay` model the `retries_max` / `retries_delay`
flags; `copyPlan` is the outcome oracle for successive copy attempts
(attempt `i` succeeds iff entry `i` is `true`; missing entries fail);
`copyBytes` is the byte count reported by a successful copy. -/
structure MoveConfig where
  retriesMax : Nat
  retriesDelay : Nat
  copyPlan : List Bool
  copyBytes : Nat
deriving DecidableEq, Repr

/-- Model of `filepath.Base`: the component after the last slash. -/
def baseName (p : String) : String :=
  String.mk (p.toList.foldl (fun acc c => if c = '/' then [] else acc ++ [c]) [])

/-- The destination path computed by `movePcapToGcs` (source lines
163-169): destination directory plus base name, with a `.gz` suffix when
compression is enabled. -/
def tgtName (dstDir srcPcap : String) (compress : Bool) : String :=
  if compress then dstDir ++ "/" ++ baseName srcPcap ++ ".gz"
  else dstDir ++ "/" ++ baseName srcPcap

/-- Index of the first successful copy attempt within the attempt budget,
if any: models `retry.DoWithData` with `retry.Attempts` (the loop stops at
the first success and gives up after `attempts` failed attempts). -/
def firstSuccess : List Bool → Nat → Option Nat
  | _, 0 => none
  | [], _ + 1 => none
  | b :: rest, n + 1 =>
      if b then some 0 else (firstSuccess rest n).map (· + 1)

/-- Structured log events emitted by the watcher, keyed by the call sites
in the source; payloads keep the data relevant to the claims (paths, keys,
byte counts). -/
inductive LogEv
  | openFail (src tgt : String)
  | createFail (src tgt : String)
  | copyRetry (attempt : Nat) (src tgt : String)
  | copyFail (src tgt : String)
  | copied (src tgt : String) (bytes : Nat)
  | deleted (src : String)
  | flushing (src : String)
  | flushFailed (src : String)
  | flushed (src tgt : String)
  | createdEvt (key file : String)
  | unavailable (key file : String)
  | exporting (prev : String)
  | exported (prev tgt : String)
  | exportFailed (prev : String)
  | leaked (key file : String)
  | queued (file : String)
  | oswMem (before after : Nat)
deriving DecidableEq, Repr

/-- One `OnRetry` log entry per failed copy attempt. -/
def retryLogs (n : Nat) (src tgt : String) : List LogEv :=
  (List.range n).map (fun a => LogEv.copyRetry a src tgt)

/-- Result of the Reliable Mover: the filesystem after the call, the
computed destination path, the byte count, success flag, emitted logs, the
number of copy attempts performed, and the inter-attempt delays waited. -/
structure MoveOut where
  fs : FS
  tgt : String
  bytes : Nat
  ok : Bool
  logs : List LogEv
  copyAttempts : Nat
  delays : List Nat
deriving DecidableEq, Repr

/-- Shallow embedding of `movePcapToGcs` (source lines 157-238).
Opening the source read-only fails iff the file is absent from the source
directory; creating the destination with `O_CREATE|O_EXCL` fails iff the
destination name already exists (and creates it otherwise, even if the
subsequent copy fails); only the copy step runs under the bounded
fixed-delay retry combinator; on copy success the source is removed iff
`delete` is set. -/
def movePcapToGcs (cfg : MoveConfig) (fs : FS) (srcPcap dstDir : String)
    (compress delete : Bool) : MoveOut :=
  let tgtPcap := tgtName dstDir srcPcap compress
  if srcPcap ∈ fs.src then
    if tgtPcap ∈ fs.dst then
      { fs := fs, tgt := tgtPcap, bytes := 0, ok := false,
        logs := [LogEv.createFail srcPcap tgtPcap], copyAttempts := 0, delays := [] }
    else
      let fs1 : FS := { fs with dst := fs.dst ++ [tgtPcap] }
      match firstSuccess cfg.copyPlan cfg.retriesMax with
      | none =>
          { fs := fs1, tgt := tgtPcap, bytes := 0, ok := false,
            logs := retryLogs cfg.retriesMax srcPcap tgtPcap ++ [LogEv.copyFail srcPcap tgtPcap],
            copyAttempts := cfg.retriesMax,
            delays := List.replicate (cfg.retriesMax - 1) cfg.retriesDelay }
      | some i =>
          let fs2 : FS := if delete then { fs1 with src := fs1.src.erase srcPcap } else fs1
          { fs := fs2, tgt := tgtPcap, bytes := cfg.copyBytes, ok := true,
            logs := retryLogs i srcPcap tgtPcap ++ [LogEv.copied srcPcap tgtPcap cfg.copyBytes]
              ++ (if delete then [LogEv.deleted srcPcap] else []),
            copyAttempts := i + 1,
            delays := List.replicate i cfg.retriesDelay }
  else
    { fs := fs, tgt := tgtPcap, bytes := 0, ok := false,
      logs := [LogEv.openFail srcPcap tgtPcap], copyAttempts := 0, delays := [] }

/-- Operations performed on the two per-key rotation maps (`counters` and
`lastPcap`), in program order, so that statements can speak about which
bookkeeping a code path touches. -/
inductive TrackerOp
  | getLast (key : String)
  | getOrComputeCounter (key : String)
  | incCounter (key : String)
  | setLast (key file : String)
  | casLast (key oldv newv : String)
deriving DecidableEq, Repr

/-- Process-wide mutable state shared by the dispatcher and export tasks:
the per-key creation counters, the per-key active-segment pointers
(`lastPcap`), the `isActive` flag, and the filesystem. -/
structure WatcherState where
  counters : List (String × Nat)
  lastPcap : List (String × String)
  isActive : Bool
  fs : FS
deriving DecidableEq, Repr

/-- Result of one `exportPcapFile` dispatch: the state after the call, the
Boolean return value, the emitted logs, the rotation-map operations
performed, and the source files submitted to `movePcapToGcs`. -/
structure ExportOut where
  st : WatcherState
  ret : Bool
  logs : List LogEv
  ops : List TrackerOp
  moves : List String
deriving DecidableEq, Repr

/-- The flush-mode branch of `exportPcapFile` (source lines 306-318): log,
move the file with the given flags, log the outcome.  The `getLast` entry
in `ops` records the `lastPcap.Get(key)` performed at line 303, before
this branch is taken. -/
def flushExportStep (cfg : MoveConfig) (gcsDir : String) (st : WatcherState)
    (srcFile key : String) (compress delete : Bool) : ExportOut :=
  let m := movePcapToGcs cfg st.fs srcFile gcsDir compress delete
  if m.ok then
    { st := { st with fs := m.fs }, ret := true,
      logs := [LogEv.flushing srcFile] ++ m.logs ++ [LogEv.flushed srcFile m.tgt],
      ops := [TrackerOp.getLast key], moves := [srcFile] }
  else
    { st := { st with fs := m.fs }, ret := false,
      logs := [LogEv.flushing srcFile] ++ m.logs ++ [LogEv.flushFailed srcFile],
      ops := [TrackerOp.getLast key], moves := [srcFile] }

/-- The streaming branch of `exportPcapFile` (source lines 320-367):
increment the per-key counter (an `atomic.Uint64`, hence modulo `2 ^ 64`);
on the first iteration only record the active segment; on a missing or
empty predecessor log the inconsistency and record the new file; otherwise
move the previous segment and compare-and-swap the active pointer from the
previous to the new file, unconditionally overwriting (and logging a leak)
when the swap fails.  `last?` is the `lastPcap.Get(key)` result read at
line 303; `interfere` makes a concurrent writer's update of the key
between the move and the compare-and-swap explicit (`none` when the
dispatch runs without races). -/
def streamExportStep (cfg : MoveConfig) (gcsDir : String) (st : WatcherState)
    (srcFile key : String) (last? : Option String) (compress delete : Bool)
    (interfere : Option String) : ExportOut :=
  let lastName := last?.getD ""
  let loaded := last?.isSome
  let iteration := ((lookupKV st.counters key).getD 0 + 1) % 2 ^ 64
  let st1 : WatcherState := { st with counters := setKV st.counters key iteration }
  let ops1 := [TrackerOp.getLast key, TrackerOp.getOrComputeCounter key,
    TrackerOp.incCounter key]
  if iteration = 1 then
    { st := { st1 with lastPcap := setKV st1.lastPcap key srcFile }, ret := false,
      logs := [LogEv.createdEvt key srcFile],
      ops := ops1 ++ [TrackerOp.setLast key srcFile], moves := [] }
  else if loaded = false ∨ lastName = "" then
    { st := { st1 with lastPcap := setKV st1.lastPcap key srcFile }, ret := false,
      logs := [LogEv.createdEvt key srcFile, LogEv.unavailable key srcFile],
      ops := ops1 ++ [TrackerOp.setLast key srcFile], moves := [] }
  else
    let m := movePcapToGcs cfg st1.fs lastName gcsDir compress delete
    let postLogs := if m.ok then [LogEv.exported lastName m.tgt]
      else [LogEv.exportFailed lastName]
    let st2 : WatcherState := { st1 with fs := m.fs }
    let lp := match interfere with
      | none => st2.lastPcap
      | some v => setKV st2.lastPcap key v
    if lookupKV lp key = some lastName then
      { st := { st2 with lastPcap := setKV lp key srcFile }, ret := m.ok,
        logs := [LogEv.createdEvt key srcFile, LogEv.exporting lastName] ++ m.logs
          ++ postLogs ++ [LogEv.queued srcFile],
        ops := ops1 ++ [TrackerOp.casLast key lastName srcFile],
        moves := [lastName] }
    else
      { st := { st2 with lastPcap := setKV lp key srcFile }, ret := m.ok,
        logs := [LogEv.createdEvt key srcFile, LogEv.exporting lastName] ++ m.logs
          ++ postLogs ++ [LogEv.leaked key srcFile, LogEv.queued srcFile],
        ops := ops1 ++ [TrackerOp.casLast key lastName srcFile,
          TrackerOp.setLast key srcFile],
        moves := [lastName] }

/-- Shallow embedding of `exportPcapFile` (source lines 281-368).  A flush
task returns immediately while the watcher is marked active (line 290); a
file that does not match the segment pattern is ignored (lines 294-297);
`parse` stands for the compiled `pcapDotExt` regular expression passed in
by `main`, returning the three capture groups (ordinal, stream id,
extension); the rotation key joins the capture groups with `/`
(line 301). -/
def exportPcapFile (cfg : MoveConfig) (gcsDir : String)
    (parse : String → Option (String × String × String))
    (st : WatcherState) (srcFile : String) (compress delete flush : Bool)
    (interfere : Option String) : ExportOut :=
  if flush && st.isActive then
    { st := st, ret := false, logs := [], ops := [], moves := [] }
  else
    match parse srcFile with
    | none => { st := st, ret := false, logs := [], ops := [], moves := [] }
    | some (o, s, e) =>
        let key := o ++ "/" ++ s ++ "/" ++ e
        let last? := lookupKV st.lastPcap key
        if flush then flushExportStep cfg gcsDir st srcFile key compress delete
        else streamExportStep cfg gcsDir st srcFile key last? compress delete interfere

/-- Accumulated outcome of a sequence of dispatches. -/
structure RunOut where
  st : WatcherState
  logs : List LogEv
  moves : List String
deriving DecidableEq, Repr

/-- Sequential (race-free) processing of a list of create-events by the
streaming path, as performed by the event-consumption loop (source lines
459-466): each qualifying event is handed to `exportPcapFile` with
`flush = false`. -/
def processEvents (cfg : MoveConfig) (gcsDir : String)
    (parse : String → Option (String × String × String)) :
    WatcherState → List String → Bool → Bool → RunOut
  | st, [], _, _ => ⟨st, [], []⟩
  | st, f :: rest, compress, delete =>
      let out := exportPcapFile cfg gcsDir parse st f compress delete false none
      let r := processEvents cfg gcsDir parse out.st rest compress delete
      ⟨r.st, out.logs ++ r.logs, out.moves ++ r.moves⟩

/-- Accumulated outcome of a terminal directory scan: final state, the
`pendingPcapFiles` count as `pending`, logs, and the files whose flush
export returned success. -/
structure FlushOut where
  st : WatcherState
  pending : Nat
  logs : List LogEv
  succeeded : List String
deriving DecidableEq, Repr

/-- The walk inside `flushSrcDir` (source lines 381-395): every file that
passes the validator counts toward `pendingPcapFiles` and is submitted as
a flush-mode `exportPcapFile` task. -/
def flushFiles (cfg : MoveConfig) (gcsDir : String)
    (parse : String → Option (String × String × String))
    (validator : String → Bool) :
    WatcherState → List String → Bool → Bool → FlushOut
  | st, [], _, _ => ⟨st, 0, [], []⟩
  | st, f :: rest, compress, delete =>
      if validator f then
        let out := exportPcapFile cfg gcsDir parse st f compress delete true none
        let r := flushFiles cfg gcsDir parse validator out.st rest compress delete
        ⟨r.st, r.pending + 1, out.logs ++ r.logs,
          (if out.ret then [f] else []) ++ r.succeeded⟩
      else
        let r := flushFiles cfg gcsDir parse validator st rest compress delete
        ⟨r.st, r.pending, r.logs, r.succeeded⟩

/-- Shallow embedding of `flushSrcDir` (source lines 370-397): walk the
source directory (the files currently in `fs.src`) and submit each
validated file as a flush task.  The `sync` flag triggers an OS buffer
flush whose outcome is invisible to this model. -/
def flushSrcDir (cfg : MoveConfig) (gcsDir : String)
    (parse : String → Option (String × String × String))
    (validator : String → Bool) (st : WatcherState)
    (sync compress delete : Bool) : FlushOut :=
  flushFiles cfg gcsDir parse validator st st.fs.src compress delete

/-- The terminal flush exactly as invoked by `main` during shutdown
(source lines 587-590): `sync = true`, compression and deletion disabled,
validator accepting every file. -/
def terminalFlush (cfg : MoveConfig) (gcsDir : String)
    (parse : String → Option (String × String × String))
    (st : WatcherState) : FlushOut :=
  flushSrcDir cfg gcsDir parse (fun _ => true) st true false false

/-- State of the single-fire cancellation guard: the `isActive` atomic
flag and the times at which the shared `cancel()` has been executed. -/
structure CancelState where
  isActive : Bool
  fires : List Nat
deriving DecidableEq, Repr

/-- One cancellation source attempting to fire at time `t`.  Every
`cancel()` call site in `main` is guarded by
`isActive.CompareAndSwap(true, false)` (source lines 467, 539, 555, 565):
the effect executes iff the flag was still `true`, and flips it. -/
def fireCancel (st : CancelState) (t : Nat) : CancelState :=
  if st.isActive then { isActive := false, fires := st.fires ++ [t] } else st

/-- A (time-ordered) interleaving of cancellation-source attempts — the
deadline timer, the lock-acquisition path, the sentinel-detection path —
each going through the compare-and-swap guard. -/
def runCancelSources (st : CancelState) (events : List Nat) : CancelState :=
  events.foldl fireCancel st

/-- Outcome of the initialization sequence of `main` relevant to fatal
errors (source lines 399-450 and 563-570). -/
structure MainInit where
  exited : Bool
  isActive : Bool
  cancelled : Bool
deriving DecidableEq, Repr

/-- Shallow embedding of `main`'s initialization: `isActive.Store(false)`
(line 400); if `fsnotify.NewBufferedWatcher` fails, log at fatal level and
`os.Exit(1)` (lines 433-437); otherwise `isActive.CompareAndSwap(false,
true)` and, if `watcher.Add(*src_dir)` fails, log the error and
`isActive.Store(false)` (lines 445-450); finally (lines 563-570), if the
`Add` error is set, run the cleanup-and-cancel branch only when
`isActive.CompareAndSwap(true, false)` succeeds. -/
def mainInit (newWatcherOk addOk : Bool) : MainInit :=
  if newWatcherOk = false then
    { exited := true, isActive := false, cancelled := false }
  else
    let active1 := true
    let active2 := if addOk then active1 else false
    if addOk then
      { exited := false, isActive := active2, cancelled := false }
    else if active2 then
      { exited := false, isActive := false, cancelled := true }
    else
      { exited := false, isActive := active2, cancelled := false }

/-- Cgroup memory-usage counter paths (source lines 67-70). -/
def cgroupMemoryUtilization : String := "/sys/fs/cgroup/memory/memory.usage_in_bytes"

/-- Docker-variant cgroup path (source line 69). -/
def dockerCgroupMemoryUtilization : String := "/sys/fs/cgroup/memory.current"

/-- Path selection of `getCurrentMemoryUtilization` (source lines
244-248). -/
def memPath (isGAE : Bool) : String :=
  if isGAE then dockerCgroupMemoryUtilization else cgroupMemoryUtilization

/-- Shallow embedding of `getCurrentMemoryUtilization` (source lines
240-264): select the cgroup path by runtime variant and read/scan the
counter; `readFile` stands for the OS-level open-and-scan, returning the
parsed value or an error.  On error the Go function returns the zero value
together with the error. -/
def getCurrentMemoryUtilization (isGAE : Bool)
    (readFile : String → Except String Nat) : Except String Nat :=
  readFile (memPath isGAE)

/-- Outcome of one Memory Relief Monitor tick. -/
structure TickOut where
  logs : List LogEv
  keepRunning : Bool
deriving DecidableEq, Repr

/-- Shallow embedding of one tick of the Memory Relief Monitor (source
lines 504-518): read the counter discarding the error (`memoryBefore, _ :=
...`, so a failed read contributes the zero value), flush OS buffers, read
again; when the flush failed, `continue` without logging anything;
otherwise log the before/after utilization.  The loop keeps running in
either case. -/
def monitorTick (memBefore flushResult memAfter : Except String Nat) : TickOut :=
  let memoryBefore := match memBefore with | .ok v => v | .error _ => 0
  let memoryAfter := match memAfter with | .ok v => v | .error _ => 0
  match flushResult with
  | .error _ => { logs := [], keepRunning := true }
  | .ok _ => { logs := [LogEv.oswMem memoryBefore memoryAfter], keepRunning := true }

/-- A monitor tick driven by the embedded `getCurrentMemoryUtilization`,
as at source lines 509-511. -/
def monitorTickFromReads (isGAE : Bool) (readFile : String → Except String Nat)
    (flushResult : Except String Nat) : TickOut :=
  monitorTick (getCurrentMemoryUtilization isGAE readFile) flushResult
    (getCurrentMemoryUtilization isGAE readFile)

/-! ## Helper lemmas -/

theorem firstSuccess_lt (plan : List Bool) (n i : Nat)
    (h : firstSuccess plan n = some i) : i < n := by
  induction plan generalizing n i with
  | nil => cases n <;> simp [firstSuccess] at h
  | cons b rest ih =>
      cases n with
      | zero => simp [firstSuccess] at h
      | succ m =>
          by_cases hb : b
          · simp [firstSuccess, hb] at h
            omega
          · simp [firstSuccess, hb] at h
            obtain ⟨j, hj, rfl⟩ := h
            have := ih m j hj
            omega

theorem movePcapToGcs_notInSrc (cfg : MoveConfig) (fs : FS) (srcPcap dstDir : String)
    (compress delete : Bool) (h : srcPcap ∉ fs.src) :
    movePcapToGcs cfg fs srcPcap dstDir compress delete =
      { fs := fs, tgt := tgtName dstDir srcPcap compress, bytes := 0, ok := false,
        logs := [LogEv.openFail srcPcap (tgtName dstDir srcPcap compress)],
        copyAttempts := 0, delays := [] } := by
  simp [movePcapToGcs, h]

theorem movePcapToGcs_dstExists (cfg : MoveConfig) (fs : FS) (srcPcap dstDir : String)
    (compress delete : Bool) (hs : srcPcap ∈ fs.src)
    (ht : tgtName dstDir srcPcap compress ∈ fs.dst) :
    movePcapToGcs cfg fs srcPcap dstDir compress delete =
      { fs := fs, tgt := tgtName dstDir srcPcap compress, bytes := 0, ok := false,
        logs := [LogEv.createFail srcPcap (tgtName dstDir srcPcap compress)],
        copyAttempts := 0, delays := [] } := by
  simp [movePcapToGcs, hs, ht]

theorem movePcapToGcs_exhausted (cfg : MoveConfig) (fs : FS) (srcPcap dstDir : String)
    (compress delete : Bool) (hs : srcPcap ∈ fs.src)
    (ht : tgtName dstDir srcPcap compress ∉ fs.dst)
    (hf : firstSuccess cfg.copyPlan cfg.retriesMax = none) :
    movePcapToGcs cfg fs srcPcap dstDir compress delete =
      { fs := { fs with dst := fs.dst ++ [tgtName dstDir srcPcap compress] },
        tgt := tgtName dstDir srcPcap compress, bytes := 0, ok := false,
        logs := retryLogs cfg.retriesMax srcPcap (tgtName dstDir srcPcap compress)
          ++ [LogEv.copyFail srcPcap (tgtName dstDir srcPcap compress)],
        copyAttempts := cfg.retriesMax,
        delays := List.replicate (cfg.retriesMax - 1) cfg.retriesDelay } := by
  simp [movePcapToGcs, hs, ht, hf]

theorem movePcapToGcs_succeeded (cfg : MoveConfig) (fs : FS) (srcPcap dstDir : String)
    (compress delete : Bool) (i : Nat) (hs : srcPcap ∈ fs.src)
    (ht : tgtName dstDir srcPcap compress ∉ fs.dst)
    (hf : firstSuccess cfg.copyPlan cfg.retriesMax = some i) :
    movePcapToGcs cfg fs srcPcap dstDir compress delete =
      { fs := FS.mk (if delete then fs.src.erase srcPcap else fs.src)
          (fs.dst ++ [tgtName dstDir srcPcap compress]),
        tgt := tgtName dstDir srcPcap compress, bytes := cfg.copyBytes, ok := true,
        logs := retryLogs i srcPcap (tgtName dstDir srcPcap compress)
          ++ [LogEv.copied srcPcap (tgtName dstDir srcPcap compress) cfg.copyBytes]
          ++ (if delete then [LogEv.deleted srcPcap] else []),
        copyAttempts := i + 1,
        delays := List.replicate i cfg.retriesDelay } := by
  by_cases hd : delete <;> simp [movePcapToGcs, hs, ht, hf, hd]

/-! ## Claim theorems -/

/-- Claim C4: in the Reliable Mover `movePcapToGcs`, only the byte-copy
step is retried, with at most `retries_max` attempts and every
inter-attempt delay equal to the fixed `retries_delay`; a failure to open
the source file (absent from the source directory) or to create the
destination file (name already present) returns an error immediately with
zero copy attempts and an unchanged filesystem; and when every copy
attempt fails the operation returns an error and the source file is not
deleted. -/
theorem c4_mover_retry_policy (cfg : MoveConfig) (fs : FS) (srcPcap dstDir : String)
    (compress delete : Bool) :
    ((movePcapToGcs cfg fs srcPcap dstDir compress delete).copyAttempts ≤ cfg.retriesMax ∧
      ∀ d ∈ (movePcapToGcs cfg fs srcPcap dstDir compress delete).delays,
        d = cfg.retriesDelay) ∧
    (srcPcap ∉ fs.src →
      (movePcapToGcs cfg fs srcPcap dstDir compress delete).copyAttempts = 0 ∧
      (movePcapToGcs cfg fs srcPcap dstDir compress delete).ok = false ∧
      (movePcapToGcs cfg fs srcPcap dstDir compress delete).fs = fs) ∧
    (srcPcap ∈ fs.src → tgtName dstDir srcPcap compress ∈ fs.dst →
      (movePcapToGcs cfg fs srcPcap dstDir compress delete).copyAttempts = 0 ∧
      (movePcapToGcs cfg fs srcPcap dstDir compress delete).ok = false ∧
      (movePcapToGcs cfg fs srcPcap dstDir compress delete).fs = fs) ∧
    (firstSuccess cfg.copyPlan cfg.retriesMax = none →
      (movePcapToGcs cfg fs srcPcap dstDir compress delete).ok = false ∧
      (movePcapToGcs cfg fs srcPcap dstDir compress delete).fs.src = fs.src) := by
  refine ⟨?_, ?_, ?_, ?_⟩
  · by_cases hs : srcPcap ∈ fs.src
    · by_cases ht : tgtName dstDir srcPcap compress ∈ fs.dst
      · rw [movePcapToGcs_dstExists cfg fs srcPcap dstDir compress delete hs ht]
        exact ⟨Nat.zero_le _, by intro d hd; simp at hd⟩
      · rcases hf : firstSuccess cfg.copyPlan cfg.retriesMax with _ | i
        · rw [movePcapToGcs_exhausted cfg fs srcPcap dstDir compress delete hs ht hf]
          exact ⟨le_refl _, by intro d hd; exact List.eq_of_mem_replicate hd⟩
        · rw [movePcapToGcs_succeeded cfg fs srcPcap dstDir compress delete i hs ht hf]
          exact ⟨firstSuccess_lt cfg.copyPlan cfg.retriesMax i hf,
            by intro d hd; exact List.eq_of_mem_replicate hd⟩
    · rw [movePcapToGcs_notInSrc cfg fs srcPcap dstDir compress delete hs]
      exact ⟨Nat.zero_le _, by intro d hd; simp at hd⟩
  · intro hs
    rw [movePcapToGcs_notInSrc cfg fs srcPcap dstDir compress delete hs]
    exact ⟨rfl, rfl, rfl⟩
  · intro hs ht
    rw [movePcapToGcs_dstExists cfg fs srcPcap dstDir compress delete hs ht]
    exact ⟨rfl, rfl, rfl⟩
  · intro hf
    by_cases hs : srcPcap ∈ fs.src
    · by_cases ht : tgtName dstDir srcPcap compress ∈ fs.dst
      · rw [movePcapToGcs_dstExists cfg fs srcPcap dstDir compress delete hs ht]
        exact ⟨rfl, rfl⟩
      · rw [movePcapToGcs_exhausted cfg fs srcPcap dstDir compress delete hs ht hf]
        exact ⟨rfl, rfl⟩
    · rw [movePcapToGcs_notInSrc cfg fs srcPcap dstDir compress delete hs]
      exact ⟨rfl, rfl⟩

/-- Witness for C4 at concrete inputs: a mover with a three-attempt budget
whose copy always fails performs three attempts with fixed delays, reports
failure, and leaves the source file in place; a mover whose source file is
absent performs zero copy attempts. -/
theorem c4_mover_retry_policy_witness :
    ((movePcapToGcs ⟨3, 2, [false, false, false], 9⟩ ⟨["/t/a.pcap"], []⟩
        "/t/a.pcap" "/g" false true).ok = false ∧
      (movePcapToGcs ⟨3, 2, [false, false, false], 9⟩ ⟨["/t/a.pcap"], []⟩
        "/t/a.pcap" "/g" false true).fs.src = ["/t/a.pcap"]) ∧
    ((movePcapToGcs ⟨3, 2, [true], 9⟩ ⟨[], []⟩ "/t/a.pcap" "/g" false true).copyAttempts = 0 ∧
      (movePcapToGcs ⟨3, 2, [true], 9⟩ ⟨[], []⟩ "/t/a.pcap" "/g" false true).ok = false ∧
      (movePcapToGcs ⟨3, 2, [true], 9⟩ ⟨[], []⟩ "/t/a.pcap" "/g" false true).fs = ⟨[], []⟩) :=
  ⟨(c4_mover_retry_policy ⟨3, 2, [false, false, false], 9⟩ ⟨["/t/a.pcap"], []⟩
      "/t/a.pcap" "/g" false true).2.2.2 (by decide),
    (c4_mover_retry_policy ⟨3, 2, [true], 9⟩ ⟨[], []⟩
      "/t/a.pcap" "/g" false true).2.1 (by decide)⟩

/-- Claim C10: `movePcapToGcs` creates the destination file exclusively:
when a file already exists at the computed destination path, the operation
returns an error with zero copy attempts (no retry) and the filesystem —
in particular the source file — is untouched; and, in general, no
destination-directory entry is ever removed or replaced by an export. -/
theorem c10_exclusive_create (cfg : MoveConfig) (fs : FS) (srcPcap dstDir : String)
    (compress delete : Bool) :
    (srcPcap ∈ fs.src → tgtName dstDir srcPcap compress ∈ fs.dst →
      (movePcapToGcs cfg fs srcPcap dstDir compress delete).ok = false ∧
      (movePcapToGcs cfg fs srcPcap dstDir compress delete).copyAttempts = 0 ∧
      (movePcapToGcs cfg fs srcPcap dstDir compress delete).fs = fs ∧
      (movePcapToGcs cfg fs srcPcap dstDir compress delete).logs
        = [LogEv.createFail srcPcap (tgtName dstDir srcPcap compress)]) ∧
    (∀ t ∈ fs.dst, t ∈ (movePcapToGcs cfg fs srcPcap dstDir compress delete).fs.dst) := by
  constructor
  · intro hs ht
    rw [movePcapToGcs_dstExists cfg fs srcPcap dstDir compress delete hs ht]
    exact ⟨rfl, rfl, rfl, rfl⟩
  · intro t htm
    by_cases hs : srcPcap ∈ fs.src
    · by_cases ht : tgtName dstDir srcPcap compress ∈ fs.dst
      · rw [movePcapToGcs_dstExists cfg fs srcPcap dstDir compress delete hs ht]
        exact htm
      · rcases hf : firstSuccess cfg.copyPlan cfg.retriesMax with _ | i
        · rw [movePcapToGcs_exhausted cfg fs srcPcap dstDir compress delete hs ht hf]
          exact List.mem_append_left _ htm
        · rw [movePcapToGcs_succeeded cfg fs srcPcap dstDir compress delete i hs ht hf]
          exact List.mem_append_left _ htm
    · rw [movePcapToGcs_notInSrc cfg fs srcPcap dstDir compress delete hs]
      exact htm

/-- Witness for C10: with `/g/a.pcap` already present at the destination,
exporting `/t/a.pcap` fails with no copy attempt and leaves the
filesystem — including the source file — unchanged. -/
theorem c10_exclusive_create_witness :
    (movePcapToGcs ⟨5, 2, [true], 7⟩ ⟨["/t/a.pcap"], ["/g/a.pcap"]⟩
        "/t/a.pcap" "/g" false true).ok = false ∧
    (movePcapToGcs ⟨5, 2, [true], 7⟩ ⟨["/t/a.pcap"], ["/g/a.pcap"]⟩
        "/t/a.pcap" "/g" false true).copyAttempts = 0 ∧
    (movePcapToGcs ⟨5, 2, [true], 7⟩ ⟨["/t/a.pcap"], ["/g/a.pcap"]⟩
        "/t/a.pcap" "/g" false true).fs = ⟨["/t/a.pcap"], ["/g/a.pcap"]⟩ ∧
    (movePcapToGcs ⟨5, 2, [true], 7⟩ ⟨["/t/a.pcap"], ["/g/a.pcap"]⟩
        "/t/a.pcap" "/g" false true).logs
      = [LogEv.createFail "/t/a.pcap" "/g/a.pcap"] := by
  have h := (c10_exclusive_create ⟨5, 2, [true], 7⟩ ⟨["/t/a.pcap"], ["/g/a.pcap"]⟩
    "/t/a.pcap" "/g" false true).1 (by decide) (by decide)
  exact h

theorem runCancelSources_inactive (fs : List Nat) (events : List Nat) :
    runCancelSources ⟨false, fs⟩ events = ⟨false, fs⟩ := by
  induction events with
  | nil => rfl
  | cons t ts ih =>
      show runCancelSources (fireCancel ⟨false, fs⟩ t) ts = _
      simpa [fireCancel] using ih

/-- Claim C7: in a shutdown run triggered by an OS termination signal,
every cancellation source (the deadline timer, the lock-acquisition path,
the sentinel-detection path) goes through the `isActive` compare-and-swap
guard, so for any time-ordered interleaving of attempts that contains the
deadline-timer attempt (the timer, armed at signal receipt, fires at the
deadline unless a successful earlier source already disarmed it after
cancelling), the shared `cancel()` executes exactly once, at a time no
later than the deadline; and for any interleaving at all it executes at
most once. -/
theorem c7_cancel_single_fire (deadline e : Nat) (rest : List Nat)
    (hmem : deadline ∈ e :: rest) (hmin : ∀ t ∈ e :: rest, e ≤ t) :
    ((runCancelSources ⟨true, []⟩ (e :: rest)).fires = [e] ∧ e ≤ deadline) ∧
    ∀ events : List Nat, (runCancelSources ⟨true, []⟩ events).fires.length ≤ 1 := by
  constructor
  · constructor
    · show (runCancelSources (fireCancel ⟨true, []⟩ e) rest).fires = [e]
      rw [show fireCancel ⟨true, []⟩ e = (⟨false, [e]⟩ : CancelState) by simp [fireCancel]]
      rw [runCancelSources_inactive]
    · exact hmin deadline hmem
  · intro events
    cases events with
    | nil => simp [runCancelSources]
    | cons t ts =>
        show (runCancelSources (fireCancel ⟨true, []⟩ t) ts).fires.length ≤ 1
        rw [show fireCancel ⟨true, []⟩ t = (⟨false, [t]⟩ : CancelState) by simp [fireCancel]]
        rw [runCancelSources_inactive]
        simp

/-- Witness for C7: with the deadline timer attempting at time 3 and the
lock-acquisition path attempting at time 1 (and a late source at time 5),
cancellation fires exactly once, at time 1 ≤ 3. -/
theorem c7_cancel_single_fire_witness :
    ((runCancelSources ⟨true, []⟩ [1, 3, 5]).fires = [1] ∧ 1 ≤ 3) ∧
    ∀ events : List Nat, (runCancelSources ⟨true, []⟩ events).fires.length ≤ 1 :=
  c7_cancel_single_fire 3 1 [3, 5] (by decide) (by decide)

/-- Claim C8 (code bug): the spec requires an initialization failure —
watcher cannot be created, or the source directory cannot be registered —
to be fatal, with the process exiting immediately.  The embedding of
`main`'s initialization shows that only the creation failure exits
(`os.Exit(1)`); on a registration (`watcher.Add`) failure the error path
stores `isActive := false` (line 448), which makes the later
cleanup-and-cancel branch (lines 565-570, guarded by
`isActive.CompareAndSwap(true, false)`) unreachable: the process neither
exits nor cancels its context, and since every cancellation source is
guarded by the same compare-and-swap on the now-false flag, no source can
ever fire, so `main` blocks forever on `<-ctx.Done()` instead of
exiting. -/
theorem c8_add_failure_not_fatal :
    (mainInit false true).exited = true ∧
    (mainInit true false).exited = false ∧
    (mainInit true false).cancelled = false ∧
    (mainInit true false).isActive = false ∧
    ∀ events : List Nat,
      (runCancelSources ⟨(mainInit true false).isActive, []⟩ events).fires = [] := by
  refine ⟨rfl, rfl, rfl, rfl, ?_⟩
  intro events
  have h : (mainInit true false).isActive = false := rfl
  rw [h, runCancelSources_inactive]

/-- Claim C9 (counterexample): a monitor tick in which both the cgroup
counter read and the page-cache drop request fail emits no log entry at
all — the read error is discarded (`memoryBefore, _ := ...`) and the
flush error takes the silent `continue` branch — contradicting the claim
that such failures are logged.  The tick does keep the monitor running. -/
theorem c9_counterexample :
    (monitorTick (Except.error "open /sys/fs/cgroup/memory/memory.usage_in_bytes: no such file")
        (Except.error "open /proc/sys/vm/drop_caches: permission denied")
        (Except.ok 0)).logs = [] ∧
    (monitorTick (Except.error "open /sys/fs/cgroup/memory/memory.usage_in_bytes: no such file")
        (Except.error "open /proc/sys/vm/drop_caches: permission denied")
        (Except.ok 0)).keepRunning = true :=
  ⟨rfl, rfl⟩

/-- Claim C9 (amended): in every tick of the Memory Relief Monitor, a
failure to read the cgroup memory-usage counter is silently tolerated (the
value is taken as zero, no log entry records the failure), and a failure
to issue the page-cache drop request silently skips the tick's log
entirely; neither failure stops the monitor — it continues on the next
tick. -/
theorem c9_monitor_best_effort :
    ∀ (e₁ e₂ : String) (mb fr ma : Except String Nat)
      (isGAE : Bool) (readFile : String → Except String Nat),
    (monitorTick mb fr ma).keepRunning = true ∧
    monitorTick (Except.error e₁) fr ma = monitorTick (Except.ok 0) fr ma ∧
    (monitorTick mb (Except.error e₂) ma).logs = [] ∧
    (monitorTickFromReads isGAE readFile (Except.error e₂)).logs = [] ∧
    (monitorTickFromReads isGAE readFile fr).keepRunning = true := by
  intro e₁ e₂ mb fr ma isGAE readFile
  refine ⟨?_, ?_, rfl, rfl, ?_⟩
  · cases fr <;> rfl
  · cases fr <;> rfl
  · show (monitorTick (getCurrentMemoryUtilization isGAE readFile) fr
      (getCurrentMemoryUtilization isGAE readFile)).keepRunning = true
    cases fr <;> rfl

/-! ## Dispatcher branch lemmas -/

theorem exportPcapFile_stream (cfg : MoveConfig) (gcsDir : String)
    (parse : String → Option (String × String × String)) (st : WatcherState)
    (srcFile o s e : String) (compress delete : Bool) (interfere : Option String)
    (hp : parse srcFile = some (o, s, e)) :
    exportPcapFile cfg gcsDir parse st srcFile compress delete false interfere =
      streamExportStep cfg gcsDir st srcFile (o ++ "/" ++ s ++ "/" ++ e)
        (lookupKV st.lastPcap (o ++ "/" ++ s ++ "/" ++ e)) compress delete interfere := by
  simp [exportPcapFile, hp]

theorem exportPcapFile_stream_nomatch (cfg : MoveConfig) (gcsDir : String)
    (parse : String → Option (String × String × String)) (st : WatcherState)
    (srcFile : String) (compress delete : Bool) (interfere : Option String)
    (hp : parse srcFile = none) :
    exportPcapFile cfg gcsDir parse st srcFile compress delete false interfere
      = ⟨st, false, [], [], []⟩ := by
  simp [exportPcapFile, hp]

theorem exportPcapFile_flush_active (cfg : MoveConfig) (gcsDir : String)
    (parse : String → Option (String × String × String)) (st : WatcherState)
    (srcFile : String) (compress delete : Bool) (interfere : Option String)
    (ha : st.isActive = true) :
    exportPcapFile cfg gcsDir parse st srcFile compress delete true interfere
      = ⟨st, false, [], [], []⟩ := by
  simp [exportPcapFile, ha]

theorem exportPcapFile_flush_inactive (cfg : MoveConfig) (gcsDir : String)
    (parse : String → Option (String × String × String)) (st : WatcherState)
    (srcFile o s e : String) (compress delete : Bool) (interfere : Option String)
    (ha : st.isActive = false) (hp : parse srcFile = some (o, s, e)) :
    exportPcapFile cfg gcsDir parse st srcFile compress delete true interfere =
      flushExportStep cfg gcsDir st srcFile (o ++ "/" ++ s ++ "/" ++ e) compress delete := by
  simp [exportPcapFile, ha, hp]

theorem exportPcapFile_flush_nomatch (cfg : MoveConfig) (gcsDir : String)
    (parse : String → Option (String × String × String)) (st : WatcherState)
    (srcFile : String) (compress delete : Bool) (interfere : Option String)
    (ha : st.isActive = false) (hp : parse srcFile = none) :
    exportPcapFile cfg gcsDir parse st srcFile compress delete true interfere
      = ⟨st, false, [], [], []⟩ := by
  simp [exportPcapFile, ha, hp]

theorem streamExportStep_first (cfg : MoveConfig) (gcsDir : String) (st : WatcherState)
    (srcFile key : String) (last? : Option String) (compress delete : Bool)
    (interfere : Option String) (hc : lookupKV st.counters key = none) :
    streamExportStep cfg gcsDir st srcFile key last? compress delete interfere =
      { st := { counters := setKV st.counters key 1,
                lastPcap := setKV st.lastPcap key srcFile,
                isActive := st.isActive, fs := st.fs },
        ret := false, logs := [LogEv.createdEvt key srcFile],
        ops := [TrackerOp.getLast key, TrackerOp.getOrComputeCounter key,
          TrackerOp.incCounter key, TrackerOp.setLast key srcFile],
        moves := [] } := by
  simp [streamExportStep, hc]

theorem streamExportStep_unavailable (cfg : MoveConfig) (gcsDir : String)
    (st : WatcherState) (srcFile key : String) (last? : Option String)
    (compress delete : Bool) (interfere : Option String) (c : Nat)
    (hc : lookupKV st.counters key = some c) (hc1 : 1 ≤ c) (hc2 : c + 1 < 2 ^ 64)
    (hl : last? = none ∨ last? = some "") :
    streamExportStep cfg gcsDir st srcFile key last? compress delete interfere =
      { st := { counters := setKV st.counters key (c + 1),
                lastPcap := setKV st.lastPcap key srcFile,
                isActive := st.isActive, fs := st.fs },
        ret := false,
        logs := [LogEv.createdEvt key srcFile, LogEv.unavailable key srcFile],
        ops := [TrackerOp.getLast key, TrackerOp.getOrComputeCounter key,
          TrackerOp.incCounter key, TrackerOp.setLast key srcFile],
        moves := [] } := by
  have hmod : (c + 1) % 18446744073709551616 = c + 1 := Nat.mod_eq_of_lt (by simpa using hc2)
  have hne1 : c + 1 ≠ 1 := by omega
  rcases hl with hl | hl <;> subst hl <;> simp [streamExportStep, hc, hmod, hne1]

theorem streamExportStep_rotate (cfg : MoveConfig) (gcsDir : String)
    (st : WatcherState) (srcFile key prev : String) (compress delete : Bool) (c : Nat)
    (hc : lookupKV st.counters key = some c) (hc1 : 1 ≤ c) (hc2 : c + 1 < 2 ^ 64)
    (hl : lookupKV st.lastPcap key = some prev) (hprev : prev ≠ "") :
    streamExportStep cfg gcsDir st srcFile key (some prev) compress delete none =
      { st := { counters := setKV st.counters key (c + 1),
                lastPcap := setKV st.lastPcap key srcFile,
                isActive := st.isActive,
                fs := (movePcapToGcs cfg st.fs prev gcsDir compress delete).fs },
        ret := (movePcapToGcs cfg st.fs prev gcsDir compress delete).ok,
        logs := [LogEv.createdEvt key srcFile, LogEv.exporting prev]
          ++ (movePcapToGcs cfg st.fs prev gcsDir compress delete).logs
          ++ (if (movePcapToGcs cfg st.fs prev gcsDir compress delete).ok
              then [LogEv.exported prev (movePcapToGcs cfg st.fs prev gcsDir compress delete).tgt]
              else [LogEv.exportFailed prev])
          ++ [LogEv.queued srcFile],
        ops := [TrackerOp.getLast key, TrackerOp.getOrComputeCounter key,
          TrackerOp.incCounter key, TrackerOp.casLast key prev srcFile],
        moves := [prev] } := by
  have hmod : (c + 1) % 18446744073709551616 = c + 1 := Nat.mod_eq_of_lt (by simpa using hc2)
  have hne1 : c + 1 ≠ 1 := by omega
  by_cases hok : (movePcapToGcs cfg st.fs prev gcsDir compress delete).ok
    <;> simp [streamExportStep, hc, hmod, hne1, hprev, hl, hok]

/-- Recognizer for the "leaked PCAP file" log entry (source lines
359-362). -/
def isLeakEv : LogEv → Bool
  | LogEv.leaked _ _ => true
  | _ => false

theorem countP_isLeakEv_retryLogs (n : Nat) (s t : String) :
    (retryLogs n s t).countP isLeakEv = 0 := by
  rw [List.countP_eq_zero]
  intro ev hev
  simp [retryLogs] at hev
  obtain ⟨a, _, rfl⟩ := hev
  simp [isLeakEv]

theorem countP_isLeakEv_move (cfg : MoveConfig) (fs : FS) (srcPcap dstDir : String)
    (compress delete : Bool) :
    ((movePcapToGcs cfg fs srcPcap dstDir compress delete).logs).countP isLeakEv = 0 := by
  by_cases hs : srcPcap ∈ fs.src
  · by_cases ht : tgtName dstDir srcPcap compress ∈ fs.dst
    · rw [movePcapToGcs_dstExists cfg fs srcPcap dstDir compress delete hs ht]
      simp [isLeakEv]
    · rcases hf : firstSuccess cfg.copyPlan cfg.retriesMax with _ | i
      · rw [movePcapToGcs_exhausted cfg fs srcPcap dstDir compress delete hs ht hf]
        simp [List.countP_append, countP_isLeakEv_retryLogs, isLeakEv]
      · rw [movePcapToGcs_succeeded cfg fs srcPcap dstDir compress delete i hs ht hf]
        by_cases hd : delete <;>
          simp [hd, List.countP_append, countP_isLeakEv_retryLogs, isLeakEv]
  · rw [movePcapToGcs_notInSrc cfg fs srcPcap dstDir compress delete hs]
    simp [isLeakEv]

/-- Claim C2: for a streaming dispatch whose post-increment counter is at
least 2 and whose recorded previous segment is non-empty, after the
dispatch the tracker's active pointer for the key equals the triggering
filename — whether or not the compare-and-swap succeeded, and for any
concurrent interference at the swap's linearization point — and at most
one "leaked PCAP file" log entry is produced. -/
theorem c2_pointer_convergence (cfg : MoveConfig) (gcsDir : String)
    (parse : String → Option (String × String × String)) (st : WatcherState)
    (srcFile o s e prev : String) (c : Nat) (compress delete : Bool)
    (interfere : Option String)
    (hp : parse srcFile = some (o, s, e))
    (hc : lookupKV st.counters (o ++ "/" ++ s ++ "/" ++ e) = some c)
    (hc1 : 1 ≤ c) (hc2 : c + 1 < 2 ^ 64)
    (hl : lookupKV st.lastPcap (o ++ "/" ++ s ++ "/" ++ e) = some prev)
    (hprev : prev ≠ "") :
    lookupKV (exportPcapFile cfg gcsDir parse st srcFile
        compress delete false interfere).st.lastPcap (o ++ "/" ++ s ++ "/" ++ e)
      = some srcFile ∧
    (exportPcapFile cfg gcsDir parse st srcFile
        compress delete false interfere).logs.countP isLeakEv ≤ 1 := by
  rw [exportPcapFile_stream cfg gcsDir parse st srcFile o s e compress delete interfere hp, hl]
  cases interfere with
  | none =>
      rw [streamExportStep_rotate cfg gcsDir st srcFile (o ++ "/" ++ s ++ "/" ++ e)
        prev compress delete c hc hc1 hc2 hl hprev]
      constructor
      · exact lookupKV_setKV_self st.lastPcap (o ++ "/" ++ s ++ "/" ++ e) srcFile
      · by_cases hok : (movePcapToGcs cfg st.fs prev gcsDir compress delete).ok <;>
          simp [hok, List.countP_append, countP_isLeakEv_move, isLeakEv]
  | some v =>
      have hmod : (c + 1) % 18446744073709551616 = c + 1 :=
        Nat.mod_eq_of_lt (by simpa using hc2)
      have hne1 : c + 1 ≠ 1 := by omega
      by_cases hv : v = prev <;>
        by_cases hok : (movePcapToGcs cfg st.fs prev gcsDir compress delete).ok <;>
          simp [streamExportStep, hc, hmod, hne1, hprev, hv, hok,
            lookupKV_setKV_self, List.countP_append, countP_isLeakEv_move, isLeakEv]

/-- Witness for C2: second segment for key `0/eth0/pcap` arrives while a
concurrent writer replaced the active pointer at the swap point; the
pointer still converges to the new filename and exactly one leak entry is
logged (at most one, as claimed). -/
theorem c2_pointer_convergence_witness :
    lookupKV (exportPcapFile ⟨5, 2, [true], 7⟩ "/g"
        (fun f => if f = "/t/part__0_eth0__20240101T000100.pcap"
          then some ("0", "eth0", "pcap") else none)
        ⟨[("0/eth0/pcap", 1)], [("0/eth0/pcap", "/t/part__0_eth0__20240101T000000.pcap")],
          true, ⟨["/t/part__0_eth0__20240101T000000.pcap"], []⟩⟩
        "/t/part__0_eth0__20240101T000100.pcap" false true false
        (some "/t/other.pcap")).st.lastPcap "0/eth0/pcap"
      = some "/t/part__0_eth0__20240101T000100.pcap" ∧
    (exportPcapFile ⟨5, 2, [true], 7⟩ "/g"
        (fun f => if f = "/t/part__0_eth0__20240101T000100.pcap"
          then some ("0", "eth0", "pcap") else none)
        ⟨[("0/eth0/pcap", 1)], [("0/eth0/pcap", "/t/part__0_eth0__20240101T000000.pcap")],
          true, ⟨["/t/part__0_eth0__20240101T000000.pcap"], []⟩⟩
        "/t/part__0_eth0__20240101T000100.pcap" false true false
        (some "/t/other.pcap")).logs.countP isLeakEv ≤ 1 :=
  c2_pointer_convergence ⟨5, 2, [true], 7⟩ "/g"
    (fun f => if f = "/t/part__0_eth0__20240101T000100.pcap"
      then some ("0", "eth0", "pcap") else none)
    ⟨[("0/eth0/pcap", 1)], [("0/eth0/pcap", "/t/part__0_eth0__20240101T000000.pcap")],
      true, ⟨["/t/part__0_eth0__20240101T000000.pcap"], []⟩⟩
    "/t/part__0_eth0__20240101T000100.pcap" "0" "eth0" "pcap"
    "/t/part__0_eth0__20240101T000000.pcap" 1 false true (some "/t/other.pcap")
    (by decide) (by decide) (by decide) (by decide) (by decide) (by decide)

/-- Claim C5: a streaming dispatch whose post-increment counter is at
least 2 but whose recorded previous segment is absent or empty logs the
inconsistent-state error, records the new file as the active segment,
launches no export, and returns normally (with `false`) rather than
crashing or propagating an error. -/
theorem c5_missing_predecessor (cfg : MoveConfig) (gcsDir : String)
    (parse : String → Option (String × String × String)) (st : WatcherState)
    (srcFile o s e : String) (c : Nat) (compress delete : Bool)
    (hp : parse srcFile = some (o, s, e))
    (hc : lookupKV st.counters (o ++ "/" ++ s ++ "/" ++ e) = some c)
    (hc1 : 1 ≤ c) (hc2 : c + 1 < 2 ^ 64)
    (hl : lookupKV st.lastPcap (o ++ "/" ++ s ++ "/" ++ e) = none ∨
      lookupKV st.lastPcap (o ++ "/" ++ s ++ "/" ++ e) = some "") :
    (exportPcapFile cfg gcsDir parse st srcFile compress delete false none).moves = [] ∧
    (exportPcapFile cfg gcsDir parse st srcFile compress delete false none).ret = false ∧
    LogEv.unavailable (o ++ "/" ++ s ++ "/" ++ e) srcFile
      ∈ (exportPcapFile cfg gcsDir parse st srcFile compress delete false none).logs ∧
    lookupKV (exportPcapFile cfg gcsDir parse st srcFile
        compress delete false none).st.lastPcap (o ++ "/" ++ s ++ "/" ++ e)
      = some srcFile := by
  rw [exportPcapFile_stream cfg gcsDir parse st srcFile o s e compress delete none hp]
  rcases hl with hl | hl <;>
    rw [hl, streamExportStep_unavailable cfg gcsDir st srcFile
      (o ++ "/" ++ s ++ "/" ++ e) _ compress delete none c hc hc1 hc2 (by simp)] <;>
    exact ⟨rfl, rfl, by simp,
      lookupKV_setKV_self st.lastPcap (o ++ "/" ++ s ++ "/" ++ e) srcFile⟩

/-- Witness for C5: the counter for key `0/eth0/pcap` reads 1 (so the new
event is iteration 2) but no active segment is recorded; the dispatch
logs the unavailability, records the new file, and launches no export. -/
theorem c5_missing_predecessor_witness :
    (exportPcapFile ⟨5, 2, [true], 7⟩ "/g"
        (fun f => if f = "/t/part__0_eth0__20240101T000100.pcap"
          then some ("0", "eth0", "pcap") else none)
        ⟨[("0/eth0/pcap", 1)], [], true, ⟨[], []⟩⟩
        "/t/part__0_eth0__20240101T000100.pcap" false true false none).moves = [] ∧
    (exportPcapFile ⟨5, 2, [true], 7⟩ "/g"
        (fun f => if f = "/t/part__0_eth0__20240101T000100.pcap"
          then some ("0", "eth0", "pcap") else none)
        ⟨[("0/eth0/pcap", 1)], [], true, ⟨[], []⟩⟩
        "/t/part__0_eth0__20240101T000100.pcap" false true false none).ret = false ∧
    LogEv.unavailable "0/eth0/pcap" "/t/part__0_eth0__20240101T000100.pcap"
      ∈ (exportPcapFile ⟨5, 2, [true], 7⟩ "/g"
        (fun f => if f = "/t/part__0_eth0__20240101T000100.pcap"
          then some ("0", "eth0", "pcap") else none)
        ⟨[("0/eth0/pcap", 1)], [], true, ⟨[], []⟩⟩
        "/t/part__0_eth0__20240101T000100.pcap" false true false none).logs ∧
    lookupKV (exportPcapFile ⟨5, 2, [true], 7⟩ "/g"
        (fun f => if f = "/t/part__0_eth0__20240101T000100.pcap"
          then some ("0", "eth0", "pcap") else none)
        ⟨[("0/eth0/pcap", 1)], [], true, ⟨[], []⟩⟩
        "/t/part__0_eth0__20240101T000100.pcap" false true false none).st.lastPcap
      "0/eth0/pcap" = some "/t/part__0_eth0__20240101T000100.pcap" :=
  c5_missing_predecessor ⟨5, 2, [true], 7⟩ "/g"
    (fun f => if f = "/t/part__0_eth0__20240101T000100.pcap"
      then some ("0", "eth0", "pcap") else none)
    ⟨[("0/eth0/pcap", 1)], [], true, ⟨[], []⟩⟩
    "/t/part__0_eth0__20240101T000100.pcap" "0" "eth0" "pcap" 1 false true
    (by decide) (by decide) (by decide) (by decide) (Or.inl (by decide))

/-- Last element of `d :: files`. -/
def lastOf (d : String) : List String → String
  | [] => d
  | f :: rest => lastOf f rest

theorem getLast?_eq_lastOf (d : String) (files : List String) (h : files ≠ []) :
    files.getLast? = some (lastOf d files) := by
  induction files generalizing d with
  | nil => exact absurd rfl h
  | cons f rest ih =>
      cases rest with
      | nil => rfl
      | cons g rs =>
          rw [List.getLast?_cons_cons]
          exact ih f (by simp)

/-- Rotation invariant of the streaming path: starting from a state whose
counter for `key` reads `c ≥ 1` and whose active pointer holds the
non-empty segment `prev`, sequentially dispatching a list of create-events
for `key` submits exactly the previous segment of each event — that is,
all of `prev :: files` except the last — and leaves the active pointer on
the last event. -/
theorem processEvents_rotation (cfg : MoveConfig) (gcsDir : String)
    (parse : String → Option (String × String × String)) (key : String)
    (compress delete : Bool) :
    ∀ (files : List String) (st : WatcherState) (c : Nat) (prev : String),
    (∀ f ∈ files, ∃ o s e, parse f = some (o, s, e) ∧
      o ++ "/" ++ s ++ "/" ++ e = key ∧ f ≠ "") →
    lookupKV st.counters key = some c → 1 ≤ c →
    c + files.length < 2 ^ 64 →
    lookupKV st.lastPcap key = some prev → prev ≠ "" →
    (processEvents cfg gcsDir parse st files compress delete).moves
      = (prev :: files).dropLast ∧
    lookupKV (processEvents cfg gcsDir parse st files compress delete).st.lastPcap key
      = some (lastOf prev files) := by
  intro files
  induction files with
  | nil =>
      intro st c prev _ _ _ _ hl _
      exact ⟨rfl, hl⟩
  | cons f rest ih =>
      intro st c prev hparse hc hc1 hlen hl hprev
      obtain ⟨o, s, e, hp, hkey, hf0⟩ := hparse f (by simp)
      have hpow : (2 : Nat) ^ 64 = 18446744073709551616 := by norm_num
      rw [hpow] at hlen
      have hlen1 : c + 1 < 2 ^ 64 := by rw [hpow]; simp only [List.length_cons] at hlen; omega
      have hstep := exportPcapFile_stream cfg gcsDir parse st f o s e compress delete none hp
      rw [hkey, hl,
        streamExportStep_rotate cfg gcsDir st f key prev compress delete c hc hc1 hlen1 hl hprev]
        at hstep
      obtain ⟨m1, m2⟩ := ih
        ⟨setKV st.counters key (c + 1), setKV st.lastPcap key f, st.isActive,
          (movePcapToGcs cfg st.fs prev gcsDir compress delete).fs⟩
        (c + 1) f
        (fun g hg => hparse g (by simp [hg]))
        (lookupKV_setKV_self st.counters key (c + 1))
        (by omega)
        (by rw [hpow]; simp only [List.length_cons] at hlen; omega)
        (lookupKV_setKV_self st.lastPcap key f)
        hf0
      refine ⟨?_, ?_⟩
      · show (processEvents cfg gcsDir parse st (f :: rest) compress delete).moves = _
        simp only [processEvents, hstep]
        rw [m1]
        rfl
      · show lookupKV (processEvents cfg gcsDir parse st (f :: rest)
            compress delete).st.lastPcap key = _
        simp only [processEvents, hstep]
        exact m2

/-- Claim C1: for every non-empty sequence of create-events for segment
files sharing one freshly observed rotation key, processed sequentially
(no races) by the streaming path of `exportPcapFile`, the first event
launches no export (it only records the file as the active segment), the
total number of export attempts launched is the number of events minus
one, and each attempt is for the segment recorded immediately before the
triggering event — i.e. the submitted sources are exactly the input
sequence with its last element dropped, and afterwards the active pointer
holds the last event's file. -/
theorem c1_streaming_rotation (cfg : MoveConfig) (gcsDir : String)
    (parse : String → Option (String × String × String)) (st : WatcherState)
    (key : String) (files : List String) (compress delete : Bool)
    (hne : files ≠ [])
    (hlen : files.length < 2 ^ 64)
    (hparse : ∀ f ∈ files, ∃ o s e, parse f = some (o, s, e) ∧
      o ++ "/" ++ s ++ "/" ++ e = key ∧ f ≠ "")
    (hc : lookupKV st.counters key = none) :
    (processEvents cfg gcsDir parse st files compress delete).moves = files.dropLast ∧
    (processEvents cfg gcsDir parse st files compress delete).moves.length
      = files.length - 1 ∧
    lookupKV (processEvents cfg gcsDir parse st files compress delete).st.lastPcap key
      = files.getLast? := by
  cases files with
  | nil => exact absurd rfl hne
  | cons f rest =>
      obtain ⟨o, s, e, hp, hkey, hf0⟩ := hparse f (by simp)
      have hstep := exportPcapFile_stream cfg gcsDir parse st f o s e compress delete none hp
      rw [hkey, streamExportStep_first cfg gcsDir st f key
        (lookupKV st.lastPcap key) compress delete none hc] at hstep
      obtain ⟨m1, m2⟩ := processEvents_rotation cfg gcsDir parse key compress delete rest
        ⟨setKV st.counters key 1, setKV st.lastPcap key f, st.isActive, st.fs⟩
        1 f
        (fun g hg => hparse g (by simp [hg]))
        (lookupKV_setKV_self st.counters key 1)
        (le_refl 1)
        (by simp only [List.length_cons] at hlen; omega)
        (lookupKV_setKV_self st.lastPcap key f)
        hf0
      have hmoves : (processEvents cfg gcsDir parse st (f :: rest) compress delete).moves
          = (f :: rest).dropLast := by
        show (processEvents cfg gcsDir parse st (f :: rest) compress delete).moves = _
        simp only [processEvents, hstep]
        rw [m1]
        rfl
      refine ⟨hmoves, ?_, ?_⟩
      · rw [hmoves, List.length_dropLast]
      · show lookupKV (processEvents cfg gcsDir parse st (f :: rest)
            compress delete).st.lastPcap key = _
        simp only [processEvents, hstep]
        rw [m2, getLast?_eq_lastOf f (f :: rest) (by simp)]
        rfl

/-- Witness for C1: three segments for key `0/eth0/pcap` arrive in order;
exactly the first two (N−1 = 2) are submitted for export, each being the
immediately preceding segment, and the pointer ends on the third. -/
theorem c1_streaming_rotation_witness :
    (processEvents ⟨5, 2, [true], 7⟩ "/g"
        (fun f => if f = "/t/p1" ∨ f = "/t/p2" ∨ f = "/t/p3"
          then some ("0", "eth0", "pcap") else none)
        ⟨[], [], true, ⟨["/t/p1", "/t/p2", "/t/p3"], []⟩⟩
        ["/t/p1", "/t/p2", "/t/p3"] false true).moves = ["/t/p1", "/t/p2"] ∧
    (processEvents ⟨5, 2, [true], 7⟩ "/g"
        (fun f => if f = "/t/p1" ∨ f = "/t/p2" ∨ f = "/t/p3"
          then some ("0", "eth0", "pcap") else none)
        ⟨[], [], true, ⟨["/t/p1", "/t/p2", "/t/p3"], []⟩⟩
        ["/t/p1", "/t/p2", "/t/p3"] false true).moves.length = 3 - 1 ∧
    lookupKV (processEvents ⟨5, 2, [true], 7⟩ "/g"
        (fun f => if f = "/t/p1" ∨ f = "/t/p2" ∨ f = "/t/p3"
          then some ("0", "eth0", "pcap") else none)
        ⟨[], [], true, ⟨["/t/p1", "/t/p2", "/t/p3"], []⟩⟩
        ["/t/p1", "/t/p2", "/t/p3"] false true).st.lastPcap "0/eth0/pcap"
      = some "/t/p3" :=
  c1_streaming_rotation ⟨5, 2, [true], 7⟩ "/g"
    (fun f => if f = "/t/p1" ∨ f = "/t/p2" ∨ f = "/t/p3"
      then some ("0", "eth0", "pcap") else none)
    ⟨[], [], true, ⟨["/t/p1", "/t/p2", "/t/p3"], []⟩⟩
    "0/eth0/pcap" ["/t/p1", "/t/p2", "/t/p3"] false true
    (by decide) (by decide)
    (by
      intro f hf
      refine ⟨"0", "eth0", "pcap", ?_, by decide, ?_⟩ <;> fin_cases hf <;> decide)
    (by decide)

/-! ## Flush-path lemmas -/

theorem flushExportStep_eq (cfg : MoveConfig) (gcsDir : String) (st : WatcherState)
    (srcFile key : String) (compress delete : Bool) :
    flushExportStep cfg gcsDir st srcFile key compress delete =
      { st := { st with fs := (movePcapToGcs cfg st.fs srcFile gcsDir compress delete).fs },
        ret := (movePcapToGcs cfg st.fs srcFile gcsDir compress delete).ok,
        logs := [LogEv.flushing srcFile]
          ++ (movePcapToGcs cfg st.fs srcFile gcsDir compress delete).logs
          ++ (if (movePcapToGcs cfg st.fs srcFile gcsDir compress delete).ok
              then [LogEv.flushed srcFile
                (movePcapToGcs cfg st.fs srcFile gcsDir compress delete).tgt]
              else [LogEv.flushFailed srcFile]),
        ops := [TrackerOp.getLast key],
        moves := [srcFile] } := by
  by_cases hok : (movePcapToGcs cfg st.fs srcFile gcsDir compress delete).ok <;>
    simp [flushExportStep, hok]

theorem movePcapToGcs_src_nodelete (cfg : MoveConfig) (fs : FS) (srcPcap dstDir : String)
    (compress : Bool) :
    (movePcapToGcs cfg fs srcPcap dstDir compress false).fs.src = fs.src := by
  by_cases hs : srcPcap ∈ fs.src
  · by_cases ht : tgtName dstDir srcPcap compress ∈ fs.dst
    · rw [movePcapToGcs_dstExists cfg fs srcPcap dstDir compress false hs ht]
    · rcases hf : firstSuccess cfg.copyPlan cfg.retriesMax with _ | i
      · rw [movePcapToGcs_exhausted cfg fs srcPcap dstDir compress false hs ht hf]
      · rw [movePcapToGcs_succeeded cfg fs srcPcap dstDir compress false i hs ht hf]
        simp
  · rw [movePcapToGcs_notInSrc cfg fs srcPcap dstDir compress false hs]

theorem movePcapToGcs_dst_mono (cfg : MoveConfig) (fs : FS) (srcPcap dstDir : String)
    (compress delete : Bool) :
    ∀ t ∈ fs.dst, t ∈ (movePcapToGcs cfg fs srcPcap dstDir compress delete).fs.dst := by
  intro t htm
  by_cases hs : srcPcap ∈ fs.src
  · by_cases ht : tgtName dstDir srcPcap compress ∈ fs.dst
    · rw [movePcapToGcs_dstExists cfg fs srcPcap dstDir compress delete hs ht]
      exact htm
    · rcases hf : firstSuccess cfg.copyPlan cfg.retriesMax with _ | i
      · rw [movePcapToGcs_exhausted cfg fs srcPcap dstDir compress delete hs ht hf]
        exact List.mem_append_left _ htm
      · rw [movePcapToGcs_succeeded cfg fs srcPcap dstDir compress delete i hs ht hf]
        exact List.mem_append_left _ htm
  · rw [movePcapToGcs_notInSrc cfg fs srcPcap dstDir compress delete hs]
    exact htm

theorem movePcapToGcs_tgt_mem (cfg : MoveConfig) (fs : FS) (srcPcap dstDir : String)
    (compress delete : Bool) (hs : srcPcap ∈ fs.src) :
    tgtName dstDir srcPcap compress
      ∈ (movePcapToGcs cfg fs srcPcap dstDir compress delete).fs.dst := by
  by_cases ht : tgtName dstDir srcPcap compress ∈ fs.dst
  · rw [movePcapToGcs_dstExists cfg fs srcPcap dstDir compress delete hs ht]
    exact ht
  · rcases hf : firstSuccess cfg.copyPlan cfg.retriesMax with _ | i
    · rw [movePcapToGcs_exhausted cfg fs srcPcap dstDir compress delete hs ht hf]
      exact List.mem_append_right _ (by simp)
    · rw [movePcapToGcs_succeeded cfg fs srcPcap dstDir compress delete i hs ht hf]
      exact List.mem_append_right _ (by simp)

theorem flushFiles_state (cfg : MoveConfig) (gcsDir : String)
    (parse : String → Option (String × String × String)) (files : List String) :
    ∀ (st : WatcherState), st.isActive = false →
    (flushFiles cfg gcsDir parse (fun _ => true) st files false false).st.counters
        = st.counters ∧
    (flushFiles cfg gcsDir parse (fun _ => true) st files false false).st.lastPcap
        = st.lastPcap ∧
    (flushFiles cfg gcsDir parse (fun _ => true) st files false false).st.isActive = false ∧
    (flushFiles cfg gcsDir parse (fun _ => true) st files false false).st.fs.src
        = st.fs.src ∧
    (∀ t ∈ st.fs.dst,
      t ∈ (flushFiles cfg gcsDir parse (fun _ => true) st files false false).st.fs.dst) := by
  induction files with
  | nil =>
      intro st ha
      exact ⟨rfl, rfl, ha, rfl, fun t ht => ht⟩
  | cons f rest ih =>
      intro st ha
      rcases hp : parse f with _ | ⟨o, s, e⟩
      · have hstep := exportPcapFile_flush_nomatch cfg gcsDir parse st f false false none ha hp
        simp only [flushFiles, if_pos, hstep]
        exact ih st ha
      · have hstep := exportPcapFile_flush_inactive cfg gcsDir parse st f o s e
          false false none ha hp
        rw [flushExportStep_eq] at hstep
        simp only [flushFiles, if_pos, hstep]
        obtain ⟨i1, i2, i3, i4, i5⟩ := ih
          { st with fs := (movePcapToGcs cfg st.fs f gcsDir false false).fs } ha
        refine ⟨i1, i2, i3, ?_, ?_⟩
        · rw [i4]
          exact movePcapToGcs_src_nodelete cfg st.fs f gcsDir false
        · intro t ht
          exact i5 t (movePcapToGcs_dst_mono cfg st.fs f gcsDir false false t ht)

theorem flushFiles_covers (cfg : MoveConfig) (gcsDir : String)
    (parse : String → Option (String × String × String)) (files : List String) :
    ∀ (st : WatcherState), st.isActive = false →
    (∀ f ∈ files, f ∈ st.fs.src) →
    ∀ f ∈ files, parse f = none ∨
      tgtName gcsDir f false
        ∈ (flushFiles cfg gcsDir parse (fun _ => true) st files false false).st.fs.dst := by
  induction files with
  | nil =>
      intro st _ _ f hf
      exact absurd hf (by simp)
  | cons g rest ih =>
      intro st ha hsub f hf
      rcases hpg : parse g with _ | ⟨o, s, e⟩
      · have hstep := exportPcapFile_flush_nomatch cfg gcsDir parse st g false false none ha hpg
        simp only [flushFiles, if_pos, hstep]
        rcases List.mem_cons.mp hf with rfl | hf'
        · exact Or.inl hpg
        · exact ih st ha (fun x hx => hsub x (by simp [hx])) f hf'
      · have hstep := exportPcapFile_flush_inactive cfg gcsDir parse st g o s e
          false false none ha hpg
        rw [flushExportStep_eq] at hstep
        simp only [flushFiles, if_pos, hstep]
        have hg : g ∈ st.fs.src := hsub g (by simp)
        have hrec := flushFiles_state cfg gcsDir parse rest
          { st with fs := (movePcapToGcs cfg st.fs g gcsDir false false).fs } ha
        rcases List.mem_cons.mp hf with rfl | hf'
        · refine Or.inr (hrec.2.2.2.2 (tgtName gcsDir f false) ?_)
          exact movePcapToGcs_tgt_mem cfg st.fs f gcsDir false false hg
        · refine ih { st with fs := (movePcapToGcs cfg st.fs g gcsDir false false).fs }
            ha ?_ f hf'
          intro x hx
          show x ∈ (movePcapToGcs cfg st.fs g gcsDir false false).fs.src
          rw [movePcapToGcs_src_nodelete cfg st.fs g gcsDir false]
          exact hsub x (by simp [hx])

theorem flushFiles_noop (cfg : MoveConfig) (gcsDir : String)
    (parse : String → Option (String × String × String)) (files : List String) :
    ∀ (st : WatcherState), st.isActive = false →
    (∀ f ∈ files, parse f = none ∨ f ∉ st.fs.src ∨ tgtName gcsDir f false ∈ st.fs.dst) →
    (flushFiles cfg gcsDir parse (fun _ => true) st files false false).st = st ∧
    (flushFiles cfg gcsDir parse (fun _ => true) st files false false).succeeded = [] := by
  induction files with
  | nil =>
      intro st _ _
      exact ⟨rfl, rfl⟩
  | cons f rest ih =>
      intro st ha hcond
      have hrest : ∀ g ∈ rest, parse g = none ∨ g ∉ st.fs.src ∨
          tgtName gcsDir g false ∈ st.fs.dst :=
        fun g hg => hcond g (by simp [hg])
      rcases hp : parse f with _ | ⟨o, s, e⟩
      · have hstep := exportPcapFile_flush_nomatch cfg gcsDir parse st f false false none ha hp
        simp only [flushFiles, if_pos, hstep]
        obtain ⟨j1, j2⟩ := ih st ha hrest
        exact ⟨j1, by simp [j2]⟩
      · have hnoop : movePcapToGcs cfg st.fs f gcsDir false false =
            { fs := st.fs, tgt := tgtName gcsDir f false, bytes := 0, ok := false,
              logs := (movePcapToGcs cfg st.fs f gcsDir false false).logs,
              copyAttempts := 0, delays := [] } := by
          rcases hcond f (by simp) with hca | hca | hca
          · rw [hca] at hp
            cases hp
          · rw [movePcapToGcs_notInSrc cfg st.fs f gcsDir false false hca]
          · by_cases hs : f ∈ st.fs.src
            · rw [movePcapToGcs_dstExists cfg st.fs f gcsDir false false hs hca]
            · rw [movePcapToGcs_notInSrc cfg st.fs f gcsDir false false hs]
        have hstep := exportPcapFile_flush_inactive cfg gcsDir parse st f o s e
          false false none ha hp
        rw [flushExportStep_eq, hnoop] at hstep
        simp only [flushFiles, if_pos, hstep]
        obtain ⟨j1, j2⟩ := ih st ha hrest
        exact ⟨j1, by simp [j2]⟩

/-- Claim C3 (counterexample): a terminal-flush dispatch does NOT bypass
rotation-state bookkeeping entirely — before taking the flush branch it
performs a read of the per-key active pointer (`lastPcap.Get(key)` at
source line 303), so its rotation-map operation trace is non-empty even
though the export itself proceeds.  The claim's assertion that a flush
task "neither reads nor mutates the per-key counter or active pointer
before exporting" is therefore false on the code. -/
theorem c3_counterexample :
    (exportPcapFile ⟨5, 2, [true], 7⟩ "/g"
        (fun f => if f = "/t/p1" then some ("0", "eth0", "pcap") else none)
        ⟨[], [("0/eth0/pcap", "/t/p0")], false, ⟨["/t/p1"], []⟩⟩
        "/t/p1" false false true none).ops = [TrackerOp.getLast "0/eth0/pcap"] ∧
    ¬ ((exportPcapFile ⟨5, 2, [true], 7⟩ "/g"
        (fun f => if f = "/t/p1" then some ("0", "eth0", "pcap") else none)
        ⟨[], [("0/eth0/pcap", "/t/p0")], false, ⟨["/t/p1"], []⟩⟩
        "/t/p1" false false true none).ops = []) ∧
    (exportPcapFile ⟨5, 2, [true], 7⟩ "/g"
        (fun f => if f = "/t/p1" then some ("0", "eth0", "pcap") else none)
        ⟨[], [("0/eth0/pcap", "/t/p0")], false, ⟨["/t/p1"], []⟩⟩
        "/t/p1" false false true none).moves = ["/t/p1"] := by
  decide

/-- Claim C3 (amended): a terminal-flush export task refuses to execute
(returns `false` with no effect) while the watcher is still marked active;
when the watcher is inactive it performs exactly one discarded read of the
per-key active pointer and never touches the per-key counter, mutating no
rotation state (counters and active pointers are unchanged); and the
terminal flush submitted by `main` invokes it with compression and
deletion disabled, so no source file is removed by the flush. -/
theorem c3_flush_mode_contract (cfg : MoveConfig) (gcsDir : String)
    (parse : String → Option (String × String × String)) (st : WatcherState)
    (srcFile o s e : String) (compress delete : Bool)
    (hp : parse srcFile = some (o, s, e)) :
    (st.isActive = true →
      exportPcapFile cfg gcsDir parse st srcFile compress delete true none
        = ⟨st, false, [], [], []⟩) ∧
    (st.isActive = false →
      (exportPcapFile cfg gcsDir parse st srcFile compress delete true none).ops
        = [TrackerOp.getLast (o ++ "/" ++ s ++ "/" ++ e)] ∧
      (exportPcapFile cfg gcsDir parse st srcFile compress delete true none).st.counters
        = st.counters ∧
      (exportPcapFile cfg gcsDir parse st srcFile compress delete true none).st.lastPcap
        = st.lastPcap) ∧
    (terminalFlush cfg gcsDir parse st
      = flushSrcDir cfg gcsDir parse (fun _ => true) st true false false) ∧
    (st.isActive = false →
      (terminalFlush cfg gcsDir parse st).st.fs.src = st.fs.src) := by
  refine ⟨?_, ?_, rfl, ?_⟩
  · intro ha
    exact exportPcapFile_flush_active cfg gcsDir parse st srcFile compress delete none ha
  · intro ha
    rw [exportPcapFile_flush_inactive cfg gcsDir parse st srcFile o s e
      compress delete none ha hp, flushExportStep_eq]
    exact ⟨rfl, rfl, rfl⟩
  · intro ha
    exact (flushFiles_state cfg gcsDir parse st.fs.src st ha).2.2.2.1

/-- Witness for C3 (amended) at a concrete input: with the watcher
inactive, the flush dispatch leaves both rotation maps unchanged and its
operation trace is the single discarded read; the terminal flush preserves
the source directory (deletion disabled). -/
theorem c3_flush_mode_contract_witness :
    ((⟨[("0/eth0/pcap", 1)], [("0/eth0/pcap", "/t/p0")], false,
        ⟨["/t/p1"], []⟩⟩ : WatcherState).isActive = true →
      exportPcapFile ⟨5, 2, [true], 7⟩ "/g"
        (fun f => if f = "/t/p1" then some ("0", "eth0", "pcap") else none)
        ⟨[("0/eth0/pcap", 1)], [("0/eth0/pcap", "/t/p0")], false, ⟨["/t/p1"], []⟩⟩
        "/t/p1" false false true none
        = ⟨⟨[("0/eth0/pcap", 1)], [("0/eth0/pcap", "/t/p0")], false,
            ⟨["/t/p1"], []⟩⟩, false, [], [], []⟩) ∧
    ((⟨[("0/eth0/pcap", 1)], [("0/eth0/pcap", "/t/p0")], false,
        ⟨["/t/p1"], []⟩⟩ : WatcherState).isActive = false →
      (exportPcapFile ⟨5, 2, [true], 7⟩ "/g"
        (fun f => if f = "/t/p1" then some ("0", "eth0", "pcap") else none)
        ⟨[("0/eth0/pcap", 1)], [("0/eth0/pcap", "/t/p0")], false, ⟨["/t/p1"], []⟩⟩
        "/t/p1" false false true none).ops
        = [TrackerOp.getLast ("0" ++ "/" ++ "eth0" ++ "/" ++ "pcap")] ∧
      (exportPcapFile ⟨5, 2, [true], 7⟩ "/g"
        (fun f => if f = "/t/p1" then some ("0", "eth0", "pcap") else none)
        ⟨[("0/eth0/pcap", 1)], [("0/eth0/pcap", "/t/p0")], false, ⟨["/t/p1"], []⟩⟩
        "/t/p1" false false true none).st.counters = [("0/eth0/pcap", 1)] ∧
      (exportPcapFile ⟨5, 2, [true], 7⟩ "/g"
        (fun f => if f = "/t/p1" then some ("0", "eth0", "pcap") else none)
        ⟨[("0/eth0/pcap", 1)], [("0/eth0/pcap", "/t/p0")], false, ⟨["/t/p1"], []⟩⟩
        "/t/p1" false false true none).st.lastPcap = [("0/eth0/pcap", "/t/p0")]) ∧
    (terminalFlush ⟨5, 2, [true], 7⟩ "/g"
        (fun f => if f = "/t/p1" then some ("0", "eth0", "pcap") else none)
        ⟨[("0/eth0/pcap", 1)], [("0/eth0/pcap", "/t/p0")], false, ⟨["/t/p1"], []⟩⟩
      = flushSrcDir ⟨5, 2, [true], 7⟩ "/g"
        (fun f => if f = "/t/p1" then some ("0", "eth0", "pcap") else none)
        (fun _ => true)
        ⟨[("0/eth0/pcap", 1)], [("0/eth0/pcap", "/t/p0")], false, ⟨["/t/p1"], []⟩⟩
        true false false) ∧
    ((⟨[("0/eth0/pcap", 1)], [("0/eth0/pcap", "/t/p0")], false,
        ⟨["/t/p1"], []⟩⟩ : WatcherState).isActive = false →
      (terminalFlush ⟨5, 2, [true], 7⟩ "/g"
        (fun f => if f = "/t/p1" then some ("0", "eth0", "pcap") else none)
        ⟨[("0/eth0/pcap", 1)], [("0/eth0/pcap", "/t/p0")], false,
          ⟨["/t/p1"], []⟩⟩).st.fs.src = ["/t/p1"]) :=
  c3_flush_mode_contract ⟨5, 2, [true], 7⟩ "/g"
    (fun f => if f = "/t/p1" then some ("0", "eth0", "pcap") else none)
    ⟨[("0/eth0/pcap", 1)], [("0/eth0/pcap", "/t/p0")], false, ⟨["/t/p1"], []⟩⟩
    "/t/p1" "0" "eth0" "pcap" false false (by decide)

/-- Claim C6 (counterexample): the terminal flush runs with deletion
disabled, so files DO remain in the source directory after the first scan
completes — and a second scan therefore re-submits them (one additional
flush task, not zero).  Concretely, with one file `/t/p1`: after the first
`flushSrcDir` run the source directory still contains it, and the second
run counts one pending submission. -/
theorem c6_counterexample :
    (terminalFlush ⟨5, 2, [true], 7⟩ "/g"
        (fun f => if f = "/t/p1" then some ("0", "eth0", "pcap") else none)
        ⟨[], [], false, ⟨["/t/p1"], []⟩⟩).st.fs.src ≠ [] ∧
    (terminalFlush ⟨5, 2, [true], 7⟩ "/g"
        (fun f => if f = "/t/p1" then some ("0", "eth0", "pcap") else none)
        (terminalFlush ⟨5, 2, [true], 7⟩ "/g"
          (fun f => if f = "/t/p1" then some ("0", "eth0", "pcap") else none)
          ⟨[], [], false, ⟨["/t/p1"], []⟩⟩).st).pending ≠ 0 := by
  decide

/-- Claim C6 (amended): the terminal flush is idempotent in its effects,
but not because the source directory is empty after the first scan
(deletion is disabled during flush, so every file remains): running the
terminal scan a second time on the same directory, with no new files in
between, re-submits each remaining file, yet every re-submission fails at
the exclusive destination create (the target name already exists), so the
second run completes zero successful exports and changes no state. -/
theorem c6_terminal_flush_idempotent (cfg : MoveConfig) (gcsDir : String)
    (parse : String → Option (String × String × String)) (st : WatcherState)
    (ha : st.isActive = false) :
    (terminalFlush cfg gcsDir parse
        (terminalFlush cfg gcsDir parse st).st).succeeded = [] ∧
    (terminalFlush cfg gcsDir parse (terminalFlush cfg gcsDir parse st).st).st
      = (terminalFlush cfg gcsDir parse st).st := by
  obtain ⟨_, _, hact, hsrc, _⟩ := flushFiles_state cfg gcsDir parse st.fs.src st ha
  have hcov := flushFiles_covers cfg gcsDir parse st.fs.src st ha (fun f hf => hf)
  have hnoop := flushFiles_noop cfg gcsDir parse
    (flushFiles cfg gcsDir parse (fun _ => true) st st.fs.src false false).st.fs.src
    (flushFiles cfg gcsDir parse (fun _ => true) st st.fs.src false false).st
    hact ?_
  · exact ⟨hnoop.2, hnoop.1⟩
  · intro f hf
    rw [hsrc] at hf
    rcases hcov f hf with hc | hc
    · exact Or.inl hc
    · exact Or.inr (Or.inr hc)

/-- Witness for C6 (amended): one file, flushed twice; the second scan
succeeds on nothing and leaves the state of the first scan unchanged. -/
theorem c6_terminal_flush_idempotent_witness :
    (terminalFlush ⟨5, 2, [true], 7⟩ "/g"
        (fun f => if f = "/t/p1" then some ("0", "eth0", "pcap") else none)
        (terminalFlush ⟨5, 2, [true], 7⟩ "/g"
          (fun f => if f = "/t/p1" then some ("0", "eth0", "pcap") else none)
          ⟨[], [], false, ⟨["/t/p1"], []⟩⟩).st).succeeded = [] ∧
    (terminalFlush ⟨5, 2, [true], 7⟩ "/g"
        (fun f => if f = "/t/p1" then some ("0", "eth0", "pcap") else none)
        (terminalFlush ⟨5, 2, [true], 7⟩ "/g"
          (fun f => if f = "/t/p1" then some ("0", "eth0", "pcap") else none)
          ⟨[], [], false, ⟨["/t/p1"], []⟩⟩).st).st
      = (terminalFlush ⟨5, 2, [true], 7⟩ "/g"
          (fun f => if f = "/t/p1" then some ("0", "eth0", "pcap") else none)
          ⟨[], [], false, ⟨["/t/p1"], []⟩⟩).st :=
  c6_terminal_flush_idempotent ⟨5, 2, [true], 7⟩ "/g"
    (fun f => if f = "/t/p1" then some ("0", "eth0", "pcap") else none)
    ⟨[], [], false, ⟨["/t/p1"], []⟩⟩ (by decide)

end PcapSidecar
